import Mathlib

/-!
Verification development for the resilient data-provider adapter in
data_service/tonghuashun_client.py: rate limiter, session management,
response normalization, packed-row flattening and fallback query
resolution.  Python values crossing the upstream API boundary are
modelled by the inductive type PyVal; functions of the source are
translated one-to-one into executable Lean definitions, parameterized
by the standard-library helpers they call (json.loads, bytes.decode,
float(str)) which are outside the repository.
-/

set_option maxRecDepth 4000

/-- Python run-time values as they appear at the adapter's API boundary:
None, bool, int, float (modelled as a rational), str, bytes, list, tuple,
dict (an insertion-ordered association list with unique keys), a pandas
DataFrame (already in records form), and any other unrecognized object. -/
inductive PyVal where
  | none
  | bool (b : Bool)
  | int (n : Int)
  | float (q : ℚ)
  | str (s : String)
  | bytes (bs : List Nat)
  | list (xs : List PyVal)
  | tuple (xs : List PyVal)
  | dict (kvs : List (String × PyVal))
  | frame (rows : List (List (String × PyVal)))
  | obj

/-- A normalized row: an insertion-ordered field-name/value mapping
(a Python dict produced by the normalizer). -/
abbrev Row := List (String × PyVal)

/-- Keys of a row, in insertion order. -/
def rowKeys (r : Row) : List String := r.map Prod.fst

/-- Python dict assignment d[k] = v on an association list: replaces the
value in place when the key is present (keeping its position), appends
otherwise. -/
def dictSet (r : Row) (k : String) (v : PyVal) : Row :=
  if r.any (fun kv => kv.1 == k) then
    r.map (fun kv => if kv.1 == k then (k, v) else kv)
  else r ++ [(k, v)]

/-- Python dict.pop(k): removes the entry with key k. -/
def dictPop (r : Row) (k : String) : Row :=
  r.filter (fun kv => kv.1 != k)

/-- Source _ensure_list_of_dicts, inner loop body: a dict element is kept
as a row, any other element it is wrapped as a synthetic one-field row. -/
def wrapRow : PyVal → Row
  | .dict kvs => kvs
  | v => [("value", v)]

/-- Source _ensure_list_of_dicts: None gives no rows, a DataFrame gives its
records, a list maps each element through wrapRow, a dict is a single row,
and any scalar is wrapped as a single synthetic row. -/
def ensure_list_of_dicts : PyVal → List Row
  | .none => []
  | .frame rows => rows
  | .list xs => xs.map wrapRow
  | .dict kvs => [kvs]
  | v => [[("value", v)]]

/-- Whitespace characters removed by Python str.strip (the common ASCII
whitespace; sufficient for the strings this adapter handles). -/
def isPySpace (c : Char) : Bool :=
  c = ' ' || c = '\t' || c = '\n' || c = '\r' || c = '\x0b' || c = '\x0c'

/-- Python str.strip(): drop whitespace from both ends.  Defined over the
character list so that it is kernel-computable. -/
def pyStrip (s : String) : String :=
  String.mk (((s.data.dropWhile isPySpace).reverse.dropWhile isPySpace).reverse)

/-- Python str.startswith for a literal string argument. -/
def pyStartsWith (s pre : String) : Bool :=
  pre.data.isPrefixOf s.data

/-- Python str.endswith for a literal string argument. -/
def pyEndsWith (s suf : String) : Bool :=
  suf.data.reverse.isPrefixOf s.data.reverse

/-- Python str.replace(',', ''): removing every comma. -/
def removeCommas (s : String) : String :=
  String.mk (s.data.filter (fun c => c ≠ ','))

/-- Helper for pySplit: accumulate the current piece (reversed). -/
def pySplitAux (sep : Char) : List Char → List Char → List String
  | [], acc => [String.mk acc.reverse]
  | c :: rest, acc =>
      if c = sep then String.mk acc.reverse :: pySplitAux sep rest []
      else pySplitAux sep rest (c :: acc)

/-- Python str.split(sep) for a one-character separator (every separator
used by the source is one character). -/
def pySplit (s : String) (sep : Char) : List String :=
  pySplitAux sep s.data []

/-- Python int(v) restricted to the values reaching it in the source: int
and bool succeed, float truncates toward zero, str parses an optionally
signed decimal (failure gives Option.none, the source catches the
ValueError), everything else fails. -/
def pyInt : PyVal → Option Int
  | .int n => some n
  | .bool b => some (if b then 1 else 0)
  | .float q => some (if q < 0 then q.ceil else q.floor)
  | .str s => (pyStrip s).toInt?
  | _ => Option.none

/-- Status-code key aliases probed by _parse_ths_result on a mapping. -/
def statusKeys : List String :=
  ["errorcode", "ErrCode", "code", "return", "retCode", "retcode"]

/-- Data-payload key aliases probed by _parse_ths_result on a mapping. -/
def dataKeys : List String :=
  ["tables", "data", "result", "rows", "list", "items"]

/-- True when the value stored under a data key is a list or a dict. -/
def isListOrDict : Option PyVal → Bool
  | some (.list _) => true
  | some (.dict _) => true
  | _ => false

/-- The mapping branch of _parse_ths_result: the first present status-key
alias is coerced with int() (coercion failure leaves the code None), the
first data-key alias holding a list or dict is normalized with
_ensure_list_of_dicts, a non-empty mapping with no data key is itself a
single row, and an empty mapping yields no rows. -/
def parse_dict_result (kvs : Row) : Option Int × List Row :=
  let code : Option Int :=
    match statusKeys.find? (fun k => (kvs.lookup k).isSome) with
    | some k =>
        match kvs.lookup k with
        | some v => pyInt v
        | Option.none => Option.none
    | Option.none => Option.none
  match dataKeys.find? (fun dk => isListOrDict (kvs.lookup dk)) with
  | some dk => (code, ensure_list_of_dicts ((kvs.lookup dk).getD PyVal.none))
  | Option.none => if kvs.isEmpty then (code, []) else (code, [kvs])

/-- Source _parse_ths_result, parameterized by jsonLoads (json.loads:
Option.none models a raised ValueError) and decodeBytes (_decode_bytes:
a fallback chain ending in errors-ignore decoding, hence total).  The
source's recursive calls on a freshly json-parsed value are guarded by
isinstance(obj, dict), so they are exactly the mapping branch
parse_dict_result. -/
def parse_ths_result (jsonLoads : String → Option PyVal)
    (decodeBytes : List Nat → String) : PyVal → Option Int × List Row
  | .tuple xs | .list xs =>
      match xs with
      | [] => (Option.none, [])
      | x :: rest =>
          let code := pyInt x
          match rest with
          | [] => (code, [])
          | y :: _ => (code, ensure_list_of_dicts y)
  | .bytes bs =>
      match jsonLoads (decodeBytes bs) with
      | some (.dict kvs) => parse_dict_result kvs
      | _ => (Option.none, [])
  | .str s =>
      match jsonLoads (pyStrip s) with
      | some (.dict kvs) => parse_dict_result kvs
      | _ => (Option.none, [])
  | .dict kvs => parse_dict_result kvs
  | _ => (Option.none, [])

/-- Source _maybe_json_list: a string that (after trimming) starts with a
bracket and ends with one is fed to json.loads; on success the parsed
object replaces the value, on failure the original value is kept. -/
def maybe_json_list (jsonLoads : String → Option PyVal) (v : PyVal) : PyVal :=
  match v with
  | .str s =>
      let t := pyStrip s
      if pyStartsWith t "[" && pyEndsWith t "]" then
        match jsonLoads t with
        | some o => o
        | Option.none => v
      else v
  | _ => v

/-- Column partition of _normalize_history_df: each cell is first coerced
with _maybe_json_list; list-valued cells go to list_cols (keeping the
coerced list), everything else to scalar_cols (keeping the coerced value).
Column order is the row's insertion order, as for a Python dict. -/
def splitListCols (jsonLoads : String → Option PyVal) :
    Row → List (String × List PyVal) × List (String × PyVal)
  | [] => ([], [])
  | (c, v) :: rest =>
      let p := splitListCols jsonLoads rest
      match maybe_json_list jsonLoads v with
      | .list xs => ((c, xs) :: p.1, p.2)
      | w => (p.1, (c, w) :: p.2)

/-- max_len of _normalize_history_df: the maximum length over the
list-valued columns (0 when there are none). -/
def maxListLen (lcs : List (String × List PyVal)) : Nat :=
  lcs.foldr (fun ca m => max ca.2.length m) 0

/-- The expanded record before the 'table' merge: list columns indexed at
position i (None past the end), scalar columns broadcast. -/
def recBase (lcs : List (String × List PyVal)) (scs : List (String × PyVal))
    (i : Nat) : Row :=
  lcs.map (fun ca => (ca.1, ca.2.getD i PyVal.none)) ++ scs

/-- One expanded record of _normalize_history_df: the base record, after
which an inner mapping stored under the key 'table' is popped and merged
field by field (inner lists indexed at i with None past the end, inner
scalars broadcast), the inner field overwriting an outer field of the same
name in place. -/
def buildRecord (lcs : List (String × List PyVal)) (scs : List (String × PyVal))
    (i : Nat) : Row :=
  match (recBase lcs scs i).lookup "table" with
  | some (.dict tbl) =>
      tbl.foldl
        (fun r kv =>
          dictSet r kv.1
            (match kv.2 with
             | .list l => l.getD i PyVal.none
             | w => w))
        (dictPop (recBase lcs scs i) "table")
  | _ => recBase lcs scs i

/-- Source _normalize_history_df on a records-form DataFrame: an empty or
multi-row frame is returned unchanged; a single row with no list-valued
columns is returned unchanged; otherwise the row is expanded into one
record per index 0..max_len. -/
def normalize_history_df (jsonLoads : String → Option PyVal)
    (df : List Row) : List Row :=
  match df with
  | [row] =>
      let p := splitListCols jsonLoads row
      if p.1.isEmpty then [row]
      else (List.range (maxListLen p.1)).map (buildRecord p.1 p.2)
  | other => other

/-- Separators tried by _to_list on a plain string, in order. -/
def seatSeps : List Char := ['|', ';', ',', '，', '、']

/-- Separator fallback of _to_list: split on the first separator occurring
in the string, strip the pieces and drop the empty ones; with no separator
present the whole string is a single-element list. -/
def splitSeat (s : String) : List PyVal :=
  match seatSeps.find? (fun sep => s.data.contains sep) with
  | some sep => (((pySplit s sep).map pyStrip).filter (fun p => p ≠ "")).map PyVal.str
  | Option.none => [.str s]

/-- Source _to_list: None gives [], a list is kept, a bracketed string is
parsed as JSON (a bracketed text can only parse to an array, so a
non-array success is unreachable and modelled as a singleton; a parse
failure falls through to the separator logic), any other string goes
through the separator logic, and any other scalar is a singleton. -/
def to_list (jsonLoads : String → Option PyVal) : PyVal → List PyVal
  | .none => []
  | .list xs => xs
  | .str s =>
      let t := pyStrip s
      if pyStartsWith t "[" && pyEndsWith t "]" then
        match jsonLoads t with
        | some (.list xs) => xs
        | some v => [v]
        | Option.none => splitSeat t
      else splitSeat t
  | v => [v]

/-- Source _to_float, parameterized by pyFloat, the Python float(str)
conversion (Option.none models a raised ValueError).  None maps to 0.0,
ints, bools and floats convert numerically, a string is cleaned of commas
and whitespace and parsed (empty or unparseable gives 0.0), and every
other object's str() form never parses as a float, so it gives 0.0. -/
def to_float (pyFloat : String → Option ℚ) : PyVal → ℚ
  | .none => 0
  | .bool b => if b then 1 else 0
  | .int n => (n : ℚ)
  | .float q => q
  | .str s =>
      let t := pyStrip (removeCommas s)
      if t = "" then 0 else (pyFloat t).getD 0
  | _ => 0

/-- Field names of the four seat columns requested by
get_dragon_tiger_seat_data. -/
def seatNameKey : String := "ths_lhb_seat_name_stock"

def seatTypeKey : String := "ths_lhb_seat_type_stock"

def seatBuyKey : String := "ths_lhb_buy_amount_seat_stock"

def seatSellKey : String := "ths_lhb_sell_amount_seat_stock"

/-- Row lookup modelling pandas Series.get: None when the key is absent. -/
def rowGet (r : Row) (k : String) : PyVal := (r.lookup k).getD PyVal.none

/-- The record get_dragon_tiger_seat_data appends for seat index i of one
daily row. -/
def seatRecord (pyFloat : String → Option ℚ) (dateStr : String)
    (stockCode stockName : PyVal)
    (names types buys sells : List PyVal) (i : Nat) : Row :=
  [("trade_date", .str dateStr),
   ("ths_stock_code_stock", stockCode),
   ("ths_stock_short_name_stock", stockName),
   (seatNameKey, names.getD i PyVal.none),
   (seatTypeKey, types.getD i PyVal.none),
   (seatBuyKey, .float (to_float pyFloat (buys.getD i PyVal.none))),
   (seatSellKey, .float (to_float pyFloat (sells.getD i PyVal.none)))]

/-- The per-row seat expansion loop of get_dragon_tiger_seat_data: the four
seat columns are parsed with _to_list, n is the minimum of their lengths,
and exactly the indices 0..n are emitted. -/
def expandSeatRow (jsonLoads : String → Option PyVal)
    (pyFloat : String → Option ℚ) (dateStr : String) (r : Row) : List Row :=
  let stockCode := rowGet r "ths_stock_code_stock"
  let stockName := rowGet r "ths_stock_short_name_stock"
  let names := to_list jsonLoads (rowGet r seatNameKey)
  let types := to_list jsonLoads (rowGet r seatTypeKey)
  let buys := to_list jsonLoads (rowGet r seatBuyKey)
  let sells := to_list jsonLoads (rowGet r seatSellKey)
  let n := min (min names.length types.length) (min buys.length sells.length)
  (List.range n).map (seatRecord pyFloat dateStr stockCode stockName names types buys sells)

/-- The client fields relevant to session state: whether the iFinDPy
module was imported (self.THS is not None) and the logged-in flag. -/
structure ClientState where
  ths : Bool
  is_logged_in : Bool
deriving DecidableEq

/-- Source TonghuasunDataClient.logout, with logoutRaises modelling whether
the upstream THS_iFinDLogout call raises.  Returns the new state, whether
the upstream logout was called, and whether an exception escaped to the
caller.  The flag reset sits after the upstream call inside the try block,
so a raising upstream call leaves is_logged_in untouched; the except
clause only logs, so nothing ever escapes. -/
def TonghuasunDataClient_logout (logoutRaises : Bool) (st : ClientState) :
    ClientState × Bool × Bool :=
  if st.ths && st.is_logged_in then
    if logoutRaises then (st, true, false)
    else ({ st with is_logged_in := false }, true, false)
  else (st, false, false)

/-- Events of the _ensure_login retry loop: one upstream login attempt
(numbered from 1) or one backoff sleep of the given duration in seconds. -/
inductive SEvent where
  | loginAttempt (k : Nat)
  | sleepDelay (d : ℚ)
deriving DecidableEq

/-- Attempt numbers of the login events of a trace, in order. -/
def loginAttempts : List SEvent → List Nat
  | [] => []
  | SEvent.loginAttempt k :: rest => k :: loginAttempts rest
  | _ :: rest => loginAttempts rest

/-- Sleep durations of a trace, in order. -/
def sleepDelays : List SEvent → List ℚ
  | [] => []
  | SEvent.sleepDelay d :: rest => d :: sleepDelays rest
  | _ :: rest => sleepDelays rest

/-- The while loop of _ensure_login: remaining iterations left, attempts
already made; each iteration makes one login attempt, returns true on
success, and otherwise sleeps base * 2 ^ (attempt - 1) seconds before the
next iteration (also after the last one, as in the source). -/
def ensureLoginLoop (login : Nat → Bool) (base : ℚ) :
    Nat → Nat → Bool × List SEvent
  | 0, _ => (false, [])
  | remaining + 1, attempt =>
      let a := attempt + 1
      if login a then (true, [SEvent.loginAttempt a])
      else
        let d := base * 2 ^ (a - 1)
        let p := ensureLoginLoop login base remaining a
        (p.1, SEvent.loginAttempt a :: SEvent.sleepDelay d :: p.2)

/-- Source _ensure_login: an already-logged-in client returns true at once
with no upstream traffic; otherwise the retry loop runs with at most
maxRetries attempts, login k being the outcome of the k-th upstream login
attempt. -/
def ensure_login (login : Nat → Bool) (base : ℚ) (maxRetries : Nat)
    (is_logged_in : Bool) : Bool × List SEvent :=
  if is_logged_in then (true, [])
  else ensureLoginLoop login base maxRetries 0

/-- State of the source RateLimiter together with the current clock: the
configured capacity and window, the timestamp deque (oldest first) and the
current time; times are rationals (seconds). -/
structure RLState where
  maxRequests : Nat
  timeWindow : ℚ
  requests : List ℚ
  now : ℚ
deriving DecidableEq

/-- Events of one RateLimiter.acquire execution: taking and releasing the
mutex, sleeping for a duration, and blocking forever on an attempt to
re-take the non-reentrant mutex already held by the same thread. -/
inductive RLEvent where
  | lockAcquire
  | lockRelease
  | sleep (t : ℚ)
  | lockBlocked
deriving DecidableEq

/-- The pruning while loop of RateLimiter.acquire: pop timestamps strictly
older than the window from the front of the deque. -/
def pruneRequests (now window : ℚ) : List ℚ → List ℚ
  | [] => []
  | t :: rest => if now - t > window then pruneRequests now window rest else t :: rest

/-- Source RateLimiter.acquire as an event-producing execution.  The fuel
bounds the recursion depth of the source's self-call; lockHeld models the
single non-reentrant threading.Lock (with lockHeld true a further acquire
by the same thread blocks forever, result Option.none).  Under capacity
the call appends now, releases the mutex and returns the new state; at
capacity the source sleeps inside the with-block and then re-enters
acquire while still holding the mutex. -/
def RateLimiter_acquire : Nat → Bool → RLState → List RLEvent × Option RLState
  | 0, _, _ => ([], Option.none)
  | _ + 1, true, _ => ([RLEvent.lockBlocked], Option.none)
  | fuel + 1, false, st =>
      let reqs := pruneRequests st.now st.timeWindow st.requests
      if reqs.length < st.maxRequests then
        ([RLEvent.lockAcquire, RLEvent.lockRelease],
         some { st with requests := reqs ++ [st.now] })
      else
        let oldest := reqs.headD 0
        let w := st.timeWindow - (st.now - oldest) + (1 / 10 : ℚ)
        let st2 : RLState := { st with requests := reqs, now := st.now + w }
        let p := RateLimiter_acquire fuel true st2
        (RLEvent.lockAcquire :: RLEvent.sleep w :: p.1, p.2)

/-- Events of the daily fallback loop of get_dragon_tiger_data: one
upstream THS_DataPool invocation per candidate (with the filter and time
parameter used and the parsed status code and row count), or a session
login operation (never emitted by this loop; present so that its absence
is expressible). -/
inductive FEvent where
  | invoke (filt t : String) (code : Option Int) (nrows : Nat)
  | loginCall
deriving DecidableEq

/-- True for upstream-invocation events, false for session operations. -/
def isInvokeEvent : FEvent → Bool
  | .invoke _ _ _ _ => true
  | .loginCall => false

/-- The candidate filter strings built by get_dragon_tiger_data for one
day, in source order. -/
def dragonFilters (dateStr compactDate : String) : List String :=
  ["date:" ++ dateStr,
   "date:" ++ dateStr ++ ";exchange:SSE",
   "date:" ++ dateStr ++ ";exchange:SZSE",
   "date:" ++ compactDate,
   "date:" ++ compactDate ++ ";exchange:SSE",
   "date:" ++ compactDate ++ ";exchange:SZSE"]

/-- The nested candidate iteration order of get_dragon_tiger_data: filters
outermost, the three time-parameter variants innermost. -/
def dragonCandidates (dateStr compactDate : String) : List (String × String) :=
  (dragonFilters dateStr compactDate).flatMap
    (fun filt => ["", dateStr, compactDate].map (fun t => (filt, t)))

/-- The inner double loop of get_dragon_tiger_data (lines 479 to 506 of
the source): each candidate is invoked and parsed; the first one with
status code 0 and a positive row count short-circuits with its rows; no
candidate succeeding yields Option.none. -/
def tryDragonCandidates (jsonLoads : String → Option PyVal)
    (decodeBytes : List Nat → String) (invoke : String → String → PyVal) :
    List (String × String) → List FEvent × Option (List Row)
  | [] => ([], Option.none)
  | (filt, t) :: rest =>
      let res := parse_ths_result jsonLoads decodeBytes (invoke filt t)
      let ev := FEvent.invoke filt t res.1 res.2.length
      if res.1 = some 0 ∧ res.2.length > 0 then ([ev], some res.2)
      else
        let p := tryDragonCandidates jsonLoads decodeBytes invoke rest
        (ev :: p.1, p.2)

/-- One day of fallback resolution in get_dragon_tiger_data, threaded
through the session state: the loop body never touches the session, so the
state passes through unchanged and the trace holds upstream invocations
only. -/
def get_dragon_tiger_day (jsonLoads : String → Option PyVal)
    (decodeBytes : List Nat → String) (invoke : String → String → PyVal)
    (dateStr compactDate : String) (st : ClientState) :
    List FEvent × Option (List Row) × ClientState :=
  let p := tryDragonCandidates jsonLoads decodeBytes invoke
    (dragonCandidates dateStr compactDate)
  (p.1, p.2, st)

/-- A key absent from every entry of a row has no lookup result. -/
theorem lookup_none_of_keys {r : Row} {k : String}
    (h : ∀ kv ∈ r, kv.1 ≠ k) : r.lookup k = Option.none := by
  induction r with
  | nil => rfl
  | cons kv rest ih =>
      have h1 : kv.1 ≠ k := h kv (List.mem_cons_self _ _)
      have hb : (k == kv.1) = false := by
        simp only [beq_eq_false_iff_ne, ne_eq]
        exact fun e => h1 e.symm
      simp only [List.lookup, hb]
      exact ih fun x hx => h x (List.mem_cons_of_mem _ hx)

/-- The keys of the two column partitions of splitListCols are, together,
a permutation of the row's keys. -/
theorem splitListCols_keys_perm (jL : String → Option PyVal) (row : Row) :
    ((splitListCols jL row).1.map Prod.fst ++
      (splitListCols jL row).2.map Prod.fst).Perm (rowKeys row) := by
  induction row with
  | nil => simp [splitListCols, rowKeys]
  | cons hd tl ih =>
      obtain ⟨c, v⟩ := hd
      cases hmj : maybe_json_list jL v <;>
        simp only [splitListCols, hmj, rowKeys, List.map_cons, List.cons_append] <;>
        first
          | exact ih.cons c
          | exact List.perm_middle.trans (ih.cons c)

/-- When no field of the output record is named 'table', buildRecord is
just the indexed list columns followed by the broadcast scalars. -/
theorem buildRecord_of_no_table {lcs : List (String × List PyVal)}
    {scs : List (String × PyVal)} {i : Nat}
    (h : (recBase lcs scs i).lookup "table" = Option.none) :
    buildRecord lcs scs i = recBase lcs scs i := by
  unfold buildRecord
  rw [h]

/-- C1.  The spec claims the RateLimiter mutex is held only for the queue
check and never across the sleep, with a sleep-then-re-evaluate loop.  The
source instead sleeps inside the with-block and then re-enters acquire
while the same thread still holds the non-reentrant threading.Lock, so an
at-capacity acquire emits its sleep strictly between taking the mutex and
(never) releasing it, and then blocks forever: with max_requests = 1,
window = 60 and one fresh timestamp, the execution trace is exactly
lockAcquire, sleep 60.1, lockBlocked, with no lockRelease and no result. -/
theorem rateLimiter_acquire_sleeps_under_mutex :
    RateLimiter_acquire 5 false ⟨1, 60, [100], 100⟩ =
      ([RLEvent.lockAcquire, RLEvent.sleep (601 / 10), RLEvent.lockBlocked],
        Option.none) ∧
    ((RateLimiter_acquire 5 false ⟨1, 60, [100], 100⟩).1.filter
      (fun e => e == RLEvent.lockRelease)) = [] := by
  have h : RateLimiter_acquire 5 false ⟨1, 60, [100], 100⟩ =
      ([RLEvent.lockAcquire, RLEvent.sleep (601 / 10), RLEvent.lockBlocked],
        Option.none) := by
    norm_num [RateLimiter_acquire, pruneRequests]
  refine ⟨h, ?_⟩
  rw [h]
  rfl

/-- C2 counterexample.  A tuple response carrying a list of two mappings
with different keys normalizes to two rows with different key sets, and
the field that only the second record has is entirely absent from the
first row rather than present with a null marker; this falsifies the
uniform-key-set part of the claim. -/
theorem parse_rows_key_sets_differ :
    parse_ths_result (fun _ => Option.none) (fun _ => "")
        (.tuple [.int 0, .list [.dict [("a", .int 1)], .dict [("b", .int 2)]]]) =
      (some 0, [[("a", .int 1)], [("b", .int 2)]]) ∧
    (rowKeys [(("a" : String), PyVal.int 1)] ==
      rowKeys [(("b" : String), PyVal.int 2)]) = false ∧
    ([(("a" : String), PyVal.int 1)] : Row).lookup "b" = Option.none := by
  refine ⟨rfl, by decide, rfl⟩

/-- C2 amended.  Totality over the documented shapes is the type of
parse_ths_result in this embedding; the rows produced from a tuple's list
payload are exactly the payload's records with their own key sets —
mappings are kept verbatim and non-mappings wrapped as a synthetic
value-field row — so rows share a key set only when the source records
already do, and a missing field stays missing rather than being
null-filled at this stage. -/
theorem parse_tuple_list_payload_keeps_source_keys
    (jsonLoads : String → Option PyVal) (decodeBytes : List Nat → String)
    (c : Int) (ds : List PyVal) (rest : List PyVal) :
    parse_ths_result jsonLoads decodeBytes (.tuple (.int c :: .list ds :: rest)) =
      (some c, ds.map wrapRow) := rfl

/-- C4 counterexample.  With the upstream logout raising, the source's
flag reset (placed after the upstream call inside the try block) is
skipped: the client stays logged in after logout returns, falsifying the
always-logged-out-afterwards part of the claim. -/
theorem logout_exception_leaves_logged_in :
    TonghuasunDataClient_logout true ⟨true, true⟩ = (⟨true, true⟩, true, false) ∧
    (TonghuasunDataClient_logout true ⟨true, true⟩).1.is_logged_in = true :=
  ⟨rfl, rfl⟩

/-- C4 amended.  logout calls the upstream logout only when the client is
logged in (and the module is present), never lets an exception escape,
and resets the logged-in flag exactly when the upstream call does not
raise; when it raises, the error is swallowed but the flag is left
unchanged. -/
theorem logout_best_effort (logoutRaises : Bool) (st : ClientState) :
    (TonghuasunDataClient_logout logoutRaises st).2.2 = false ∧
    ((TonghuasunDataClient_logout logoutRaises st).2.1 = true →
        st.is_logged_in = true ∧ st.ths = true) ∧
    (logoutRaises = false → st.ths = true →
        (TonghuasunDataClient_logout logoutRaises st).1.is_logged_in = false) ∧
    (logoutRaises = true →
        (TonghuasunDataClient_logout logoutRaises st).1.is_logged_in
          = st.is_logged_in) := by
  obtain ⟨ths, li⟩ := st
  cases ths <;> cases li <;> cases logoutRaises <;>
    simp [TonghuasunDataClient_logout]

/-- Witness for logout_best_effort at a logged-in client whose upstream
logout succeeds: the flag is reset. -/
theorem logout_best_effort_witness :
    (TonghuasunDataClient_logout false ⟨true, true⟩).1.is_logged_in = false :=
  (logout_best_effort false ⟨true, true⟩).2.2.1 rfl rfl

/-- C5 counterexample.  A bare scalar response yields no status code and
an empty row list, not the single synthetic value-row the claim
predicts. -/
theorem parse_scalar_no_synthetic_row :
    parse_ths_result (fun _ => Option.none) (fun _ => "") (.int 42) =
      (Option.none, []) ∧
    (parse_ths_result (fun _ => Option.none) (fun _ => "") (.int 42)).2.length = 0 :=
  ⟨rfl, rfl⟩

/-- C5 amended.  Scalars and unrecognized objects fall through
_parse_ths_result's dispatch to the catch-all, which returns no status
code and no rows; the synthetic value-row wrapping happens only inside
_ensure_list_of_dicts, i.e. when the scalar appears as a tuple's data
payload (or under a mapping's data key). -/
theorem parse_scalar_and_unrecognized_empty
    (jL : String → Option PyVal) (dB : List Nat → String) :
    (∀ n : Int, parse_ths_result jL dB (.int n) = (Option.none, [])) ∧
    (∀ q : ℚ, parse_ths_result jL dB (.float q) = (Option.none, [])) ∧
    (∀ b : Bool, parse_ths_result jL dB (.bool b) = (Option.none, [])) ∧
    parse_ths_result jL dB .obj = (Option.none, []) ∧
    parse_ths_result jL dB .none = (Option.none, []) ∧
    (∀ rows, parse_ths_result jL dB (.frame rows) = (Option.none, [])) ∧
    (∀ n : Int, ensure_list_of_dicts (.int n) = [[("value", .int n)]]) ∧
    (∀ n : Int, parse_ths_result jL dB (.tuple [.int 0, .int n]) =
        (some 0, [[("value", .int n)]])) :=
  ⟨fun _ => rfl, fun _ => rfl, fun _ => rfl, rfl, rfl, fun _ => rfl,
    fun _ => rfl, fun _ => rfl⟩

/-- C3 counterexample.  A single packed row with one array field and a
scalar field that is a mapping stored under the key 'table' is not
broadcast unchanged as the claim demands for every scalar field: the
'table' field is removed from the output record and its sub-fields merged
instead, so the record has no 'table' key at all. -/
theorem flatten_table_scalar_not_broadcast :
    normalize_history_df (fun _ => Option.none)
        [[("x", PyVal.list [.int 1]), ("table", PyVal.dict [("a", .int 5)])]] =
      [[("x", PyVal.int 1), ("a", PyVal.int 5)]] ∧
    ([(("x" : String), PyVal.int 1), ("a", PyVal.int 5)] : Row).lookup "table" =
      Option.none :=
  ⟨rfl, rfl⟩

/-- C3 amended.  For a single normalized row with at least one array field
(after JSON-list coercion) and no field named 'table', flattening yields
exactly max-length records: record i indexes every array field at i (None
past the end) and broadcasts every scalar field unchanged; in particular
the spec's concrete close/time/code example holds. -/
theorem flatten_packed_row :
    (∀ (jL : String → Option PyVal) (row : Row),
        (splitListCols jL row).1.isEmpty = false →
        row.all (fun kv => kv.1 != "table") = true →
        normalize_history_df jL [row] =
          (List.range (maxListLen (splitListCols jL row).1)).map
            (recBase (splitListCols jL row).1 (splitListCols jL row).2)) ∧
    (∀ jL : String → Option PyVal,
        normalize_history_df jL
            [[("close", PyVal.list [.int 1, .int 2, .int 3]),
              ("time", PyVal.list [.str "t1", .str "t2", .str "t3"]),
              ("code", PyVal.str "X")]] =
          [[("close", PyVal.int 1), ("time", PyVal.str "t1"), ("code", PyVal.str "X")],
           [("close", PyVal.int 2), ("time", PyVal.str "t2"), ("code", PyVal.str "X")],
           [("close", PyVal.int 3), ("time", PyVal.str "t3"), ("code", PyVal.str "X")]]) := by
  constructor
  · intro jL row h1 htab
    have htab2 : ∀ kv ∈ row, kv.1 ≠ "table" := by
      intro kv hkv
      have hb := List.all_eq_true.mp htab kv hkv
      simpa [bne_iff_ne] using hb
    have hkeys := splitListCols_keys_perm jL row
    have hlk : ∀ i : Nat,
        (recBase (splitListCols jL row).1 (splitListCols jL row).2 i).lookup "table" =
          Option.none := by
      intro i
      apply lookup_none_of_keys
      intro kv hkv
      simp only [recBase] at hkv
      have hk : kv.1 ∈ (splitListCols jL row).1.map Prod.fst ++
          (splitListCols jL row).2.map Prod.fst := by
        rcases List.mem_append.mp hkv with h | h
        · rcases List.mem_map.mp h with ⟨ca, hca, rfl⟩
          exact List.mem_append.mpr (Or.inl (List.mem_map_of_mem _ hca))
        · exact List.mem_append.mpr (Or.inr (List.mem_map_of_mem _ h))
      have hmem : kv.1 ∈ rowKeys row := hkeys.mem_iff.mp hk
      rcases List.mem_map.mp hmem with ⟨kv2, hkv2, he⟩
      rw [← he]
      exact htab2 kv2 hkv2
    show (if (splitListCols jL row).1.isEmpty then [row]
          else (List.range (maxListLen (splitListCols jL row).1)).map
            (buildRecord (splitListCols jL row).1 (splitListCols jL row).2)) = _
    simp only [h1, Bool.false_eq_true, if_false]
    exact List.map_congr_left fun i _ => buildRecord_of_no_table (hlk i)
  · intro jL
    rfl

/-- Witness for flatten_packed_row at the spec's own example row: both
hypotheses hold there and the flattening produces the three records. -/
theorem flatten_packed_row_witness :
    normalize_history_df (fun _ => Option.none)
        [[("close", PyVal.list [.int 1, .int 2, .int 3]),
          ("time", PyVal.list [.str "t1", .str "t2", .str "t3"]),
          ("code", PyVal.str "X")]] =
      (List.range (maxListLen (splitListCols (fun _ => Option.none)
          [("close", PyVal.list [.int 1, .int 2, .int 3]),
           ("time", PyVal.list [.str "t1", .str "t2", .str "t3"]),
           ("code", PyVal.str "X")]).1)).map
        (recBase (splitListCols (fun _ => Option.none)
            [("close", PyVal.list [.int 1, .int 2, .int 3]),
             ("time", PyVal.list [.str "t1", .str "t2", .str "t3"]),
             ("code", PyVal.str "X")]).1
          (splitListCols (fun _ => Option.none)
            [("close", PyVal.list [.int 1, .int 2, .int 3]),
             ("time", PyVal.list [.str "t1", .str "t2", .str "t3"]),
             ("code", PyVal.str "X")]).2) :=
  flatten_packed_row.1 (fun _ => Option.none)
    [("close", PyVal.list [.int 1, .int 2, .int 3]),
     ("time", PyVal.list [.str "t1", .str "t2", .str "t3"]),
     ("code", PyVal.str "X")] rfl rfl

/-- C6 counterexample.  The claim fails in both of its generalizations:
(1) a single row whose nested mapping of arrays sits under a field not
named 'table' keeps that mapping verbatim instead of merging it, and
(2) a single row whose nested arrays-holding mapping is its only field
(no top-level array field) is returned entirely unchanged — no recursive
flattening of the inner table happens at all. -/
theorem flatten_nested_mapping_not_general :
    normalize_history_df (fun _ => Option.none)
        [[("x", PyVal.list [.int 1]),
          ("inner", PyVal.dict [("a", PyVal.list [.int 7])])]] =
      [[("x", PyVal.int 1), ("inner", PyVal.dict [("a", PyVal.list [.int 7])])]] ∧
    normalize_history_df (fun _ => Option.none)
        [[("table", PyVal.dict [("a", PyVal.list [.int 1, .int 2])])]] =
      [[("table", PyVal.dict [("a", PyVal.list [.int 1, .int 2])])]] :=
  ⟨rfl, rfl⟩

/-- C6 amended.  Only a nested mapping stored under the key exactly
'table' is merged, and only in a single row that also has at least one
top-level array field: the row with just a 'table' mapping is returned
unchanged; a mapping under another name is broadcast verbatim; and when
the merge fires, inner array sub-fields are indexed at the record's
position (None past the end), inner scalars broadcast, with an inner
field overwriting a same-named outer field in place (one level deep, not
recursive). -/
theorem flatten_table_merge (jL : String → Option PyVal) :
    (∀ tbl : Row, normalize_history_df jL [[("table", PyVal.dict tbl)]] =
        [[("table", PyVal.dict tbl)]]) ∧
    (∀ (v : List PyVal) (kvs : Row),
        normalize_history_df jL [[("x", PyVal.list v), ("inner", PyVal.dict kvs)]] =
          (List.range v.length).map
            (fun i => [("x", v.getD i PyVal.none), ("inner", PyVal.dict kvs)])) ∧
    (∀ a b c d : Int,
        normalize_history_df jL
            [[("x", PyVal.list [.int a, .int b]),
              ("table", PyVal.dict [("x", PyVal.list [.int c]), ("s", PyVal.int d)])]] =
          [[("x", PyVal.int c), ("s", PyVal.int d)],
           [("x", PyVal.none), ("s", PyVal.int d)]]) := by
  refine ⟨fun tbl => rfl, ?_, fun a b c d => rfl⟩
  intro v kvs
  show (List.range (maxListLen [("x", v)])).map
      (buildRecord [("x", v)] [("inner", PyVal.dict kvs)]) = _
  rw [show maxListLen [("x", v)] = v.length from Nat.max_zero v.length ▸ rfl]
  exact List.map_congr_left fun i _ => rfl

/-- With every login attempt failing, the retry loop makes one numbered
attempt per fuel unit and sleeps the exponential backoff after each. -/
theorem ensureLoginLoop_all_fail (login : Nat → Bool) (base : ℚ)
    (hf : ∀ k, login k = false) :
    ∀ fuel a : Nat,
      (ensureLoginLoop login base fuel a).1 = false ∧
      loginAttempts (ensureLoginLoop login base fuel a).2 =
        List.range' (a + 1) fuel ∧
      sleepDelays (ensureLoginLoop login base fuel a).2 =
        (List.range fuel).map (fun k => base * 2 ^ (a + k)) := by
  intro fuel
  induction fuel with
  | zero => exact fun a => ⟨rfl, rfl, rfl⟩
  | succ n ih =>
      intro a
      obtain ⟨ih1, ih2, ih3⟩ := ih (a + 1)
      simp only [ensureLoginLoop, hf (a + 1), Bool.false_eq_true, if_false,
        loginAttempts, sleepDelays]
      refine ⟨ih1, ?_, ?_⟩
      · rw [ih2, List.range'_succ]
      · rw [ih3, List.range_succ_eq_map, List.map_cons, List.map_map]
        refine congrArg₂ _ (by norm_num) ?_
        refine List.map_congr_left fun k _ => ?_
        simp only [Function.comp_apply, Nat.succ_eq_add_one]
        rw [show a + 1 + k = a + (k + 1) from by omega]

/-- With the first success at attempt j (within fuel), the retry loop
returns true having made exactly the attempts up to j. -/
theorem ensureLoginLoop_first_success (login : Nat → Bool) (base : ℚ) :
    ∀ fuel a j : Nat, a < j → j ≤ a + fuel → login j = true →
      (∀ k, a < k → k < j → login k = false) →
      (ensureLoginLoop login base fuel a).1 = true ∧
      loginAttempts (ensureLoginLoop login base fuel a).2 =
        List.range' (a + 1) (j - a) := by
  intro fuel
  induction fuel with
  | zero => intro a j h1 h2 _ _; omega
  | succ n ih =>
      intro a j h1 h2 hs hfail
      by_cases he : a + 1 = j
      · subst he
        simp only [ensureLoginLoop, hs, if_true, loginAttempts]
        refine ⟨by trivial, ?_⟩
        rw [show a + 1 - a = 1 from by omega, List.range'_succ]
        rfl
      · have hfl : login (a + 1) = false := hfail (a + 1) (by omega) (by omega)
        simp only [ensureLoginLoop, hfl, Bool.false_eq_true, if_false,
          loginAttempts, sleepDelays]
        obtain ⟨r1, r2⟩ := ih (a + 1) j (by omega) (by omega) hs
          (fun k hk1 hk2 => hfail k (by omega) hk2)
        refine ⟨r1, ?_⟩
        rw [r2, show j - a = (j - (a + 1)) + 1 from by omega, List.range'_succ]

/-- C7.  From a logged-out state: when every upstream login attempt
fails, _ensure_login makes exactly maxRetries numbered login attempts,
sleeping base * 2 ^ (attempt - 1) after each, so the delays between
consecutive attempts are strictly increasing, and it returns false; when
attempt j is the first success, it returns true having made exactly
attempts 1..j and no more. -/
theorem ensure_login_retry_backoff (login : Nat → Bool) (base : ℚ)
    (maxRetries : Nat) (hb : 0 < base) :
    ((∀ k, login k = false) →
        (ensure_login login base maxRetries false).1 = false ∧
        loginAttempts (ensure_login login base maxRetries false).2 =
          List.range' 1 maxRetries ∧
        sleepDelays (ensure_login login base maxRetries false).2 =
          (List.range maxRetries).map (fun k => base * 2 ^ k) ∧
        (sleepDelays (ensure_login login base maxRetries false).2).Pairwise
          (· < ·)) ∧
    (∀ j, 0 < j → j ≤ maxRetries → login j = true →
        (∀ k, 0 < k → k < j → login k = false) →
        (ensure_login login base maxRetries false).1 = true ∧
        loginAttempts (ensure_login login base maxRetries false).2 =
          List.range' 1 j) := by
  constructor
  · intro hf
    obtain ⟨h1, h2, h3⟩ := ensureLoginLoop_all_fail login base hf maxRetries 0
    have h3z : sleepDelays (ensureLoginLoop login base maxRetries 0).2 =
        (List.range maxRetries).map (fun k => base * 2 ^ k) := by
      rw [h3]
      exact List.map_congr_left fun k _ => by rw [Nat.zero_add]
    refine ⟨h1, by simpa [ensure_login] using h2, by simpa [ensure_login] using h3z, ?_⟩
    show (sleepDelays (ensureLoginLoop login base maxRetries 0).2).Pairwise (· < ·)
    rw [h3z]
    refine List.Pairwise.map _ ?_ (List.pairwise_lt_range maxRetries)
    intro x y hxy
    exact mul_lt_mul_of_pos_left (pow_lt_pow_right₀ one_lt_two hxy) hb
  · intro j hj1 hj2 hs hfail
    obtain ⟨r1, r2⟩ := ensureLoginLoop_first_success login base maxRetries 0 j
      (by omega) (by omega) hs (fun k hk1 hk2 => hfail k (by omega) hk2)
    refine ⟨r1, ?_⟩
    show loginAttempts (ensureLoginLoop login base maxRetries 0).2 = List.range' 1 j
    rw [r2, show j - 0 = j from by omega]

/-- Witness for ensure_login_retry_backoff with base 1 and 3 retries:
the always-failing oracle yields false after the increasing delays
1, 2, 4, and the oracle succeeding at attempt 2 yields true after
attempts 1 and 2 only. -/
theorem ensure_login_retry_backoff_witness :
    (ensure_login (fun _ => false) 1 3 false).1 = false ∧
    sleepDelays (ensure_login (fun _ => false) 1 3 false).2 = [1, 2, 4] ∧
    (ensure_login (fun k => decide (k = 2)) 1 3 false).1 = true ∧
    loginAttempts (ensure_login (fun k => decide (k = 2)) 1 3 false).2 = [1, 2] := by
  have h1 := (ensure_login_retry_backoff (fun _ => false) 1 3 (by norm_num)).1
    (fun _ => rfl)
  have h2 := (ensure_login_retry_backoff (fun k => decide (k = 2)) 1 3
      (by norm_num)).2 2 (by norm_num) (by norm_num) (by decide)
    (fun k hk1 hk2 => by
      have : k = 1 := by omega
      subst this
      decide)
  refine ⟨h1.1, h1.2.2.1.trans ?_, h2.1, h2.2.trans (by decide)⟩
  norm_num [List.range, List.range.loop]

/-- The fallback candidate loop performs upstream invocations only: no
session operation ever appears in its trace. -/
theorem tryDragonCandidates_no_login (jL : String → Option PyVal)
    (dB : List Nat → String) (invoke : String → String → PyVal) :
    ∀ cands : List (String × String),
      ((tryDragonCandidates jL dB invoke cands).1.all isInvokeEvent) = true := by
  intro cands
  induction cands with
  | nil => simp [tryDragonCandidates]
  | cons c rest ih =>
      obtain ⟨filt, t⟩ := c
      simp only [tryDragonCandidates]
      split
      · simp [isInvokeEvent]
      · simpa [isInvokeEvent] using ih

/-- C8 counterexample.  With the upstream returning the session-expired
soft-error status for every candidate, get_dragon_tiger_data's daily
fallback loop tries the next candidate directly: the trace shows the
first invocation with the soft-error code immediately followed by the
second, contains no login operation anywhere, and the session state is
returned exactly as it was — no reset to logged-out, no fresh login. -/
theorem dragon_fallback_ignores_session_expired :
    (get_dragon_tiger_day (fun _ => Option.none) (fun _ => "")
        (fun _ _ => PyVal.tuple [.int (-1020), .list []])
        "2024-01-02" "20240102" ⟨true, true⟩).1.length = 18 ∧
    (get_dragon_tiger_day (fun _ => Option.none) (fun _ => "")
        (fun _ _ => PyVal.tuple [.int (-1020), .list []])
        "2024-01-02" "20240102" ⟨true, true⟩).1.head? =
      some (FEvent.invoke "date:2024-01-02" "" (some (-1020)) 0) ∧
    (get_dragon_tiger_day (fun _ => Option.none) (fun _ => "")
        (fun _ _ => PyVal.tuple [.int (-1020), .list []])
        "2024-01-02" "20240102" ⟨true, true⟩).1.get? 1 =
      some (FEvent.invoke "date:2024-01-02" "2024-01-02" (some (-1020)) 0) ∧
    ((get_dragon_tiger_day (fun _ => Option.none) (fun _ => "")
        (fun _ _ => PyVal.tuple [.int (-1020), .list []])
        "2024-01-02" "20240102" ⟨true, true⟩).1.all isInvokeEvent) = true ∧
    (get_dragon_tiger_day (fun _ => Option.none) (fun _ => "")
        (fun _ _ => PyVal.tuple [.int (-1020), .list []])
        "2024-01-02" "20240102" ⟨true, true⟩).2.2 = ⟨true, true⟩ := by
  refine ⟨by decide, by decide, by decide, by decide, rfl⟩

/-- C8 amended.  During the daily fallback resolution of
get_dragon_tiger_data, no status code triggers any session handling: the
loop only tests for code 0 with a positive row count, its event trace
holds upstream invocations only (never a login), and the session state
passes through unchanged; login is ensured once before the loop, not
between candidates. -/
theorem dragon_fallback_no_session_ops (jL : String → Option PyVal)
    (dB : List Nat → String) (invoke : String → String → PyVal)
    (dateStr compactDate : String) (st : ClientState) :
    ((get_dragon_tiger_day jL dB invoke dateStr compactDate st).1.all
      isInvokeEvent) = true ∧
    (get_dragon_tiger_day jL dB invoke dateStr compactDate st).2.2 = st :=
  ⟨tryDragonCandidates_no_login jL dB invoke _, rfl⟩

/-- C9.  For every daily seat-detail row, the expansion emits exactly
min-of-the-four-list-lengths records, and record i is built from the i-th
elements of the four parsed lists — longer lists are truncated at the
minimum, not padded. -/
theorem expandSeatRow_min_length (jL : String → Option PyVal)
    (pyF : String → Option ℚ) (dateStr : String) (r : Row) :
    (expandSeatRow jL pyF dateStr r).length =
      min (min (to_list jL (rowGet r seatNameKey)).length
               (to_list jL (rowGet r seatTypeKey)).length)
          (min (to_list jL (rowGet r seatBuyKey)).length
               (to_list jL (rowGet r seatSellKey)).length) ∧
    (∀ i, i < (expandSeatRow jL pyF dateStr r).length →
        (expandSeatRow jL pyF dateStr r).get? i =
          some (seatRecord pyF dateStr (rowGet r "ths_stock_code_stock")
            (rowGet r "ths_stock_short_name_stock")
            (to_list jL (rowGet r seatNameKey))
            (to_list jL (rowGet r seatTypeKey))
            (to_list jL (rowGet r seatBuyKey))
            (to_list jL (rowGet r seatSellKey)) i)) := by
  constructor
  · simp [expandSeatRow]
  · intro i hi
    simp only [expandSeatRow, List.length_map, List.length_range] at hi
    simp only [expandSeatRow, List.get?_map]
    rw [List.get?_range hi]
    rfl

/-- Witness for expandSeatRow_min_length on a row whose four seat lists
have lengths 3, 3, 2, 3: exactly two records are emitted, and record 0
uses the 0-th element of each list. -/
theorem expandSeatRow_min_length_witness :
    (expandSeatRow (fun _ => Option.none) (fun _ => Option.none) "2024-01-02"
        [("ths_stock_code_stock", PyVal.str "000001.SZ"),
         (seatNameKey, PyVal.list [.str "a", .str "b", .str "c"]),
         (seatTypeKey, PyVal.list [.str "t1", .str "t2", .str "t3"]),
         (seatBuyKey, PyVal.list [.int 1, .int 2]),
         (seatSellKey, PyVal.list [.int 3, .int 4, .int 5])]).length = 2 ∧
    (expandSeatRow (fun _ => Option.none) (fun _ => Option.none) "2024-01-02"
        [("ths_stock_code_stock", PyVal.str "000001.SZ"),
         (seatNameKey, PyVal.list [.str "a", .str "b", .str "c"]),
         (seatTypeKey, PyVal.list [.str "t1", .str "t2", .str "t3"]),
         (seatBuyKey, PyVal.list [.int 1, .int 2]),
         (seatSellKey, PyVal.list [.int 3, .int 4, .int 5])]).get? 0 =
      some (seatRecord (fun _ => Option.none) "2024-01-02"
        (PyVal.str "000001.SZ") PyVal.none
        [.str "a", .str "b", .str "c"] [.str "t1", .str "t2", .str "t3"]
        [.int 1, .int 2] [.int 3, .int 4, .int 5] 0) := by
  have h := expandSeatRow_min_length (fun _ => Option.none) (fun _ => Option.none)
    "2024-01-02"
    [("ths_stock_code_stock", PyVal.str "000001.SZ"),
     (seatNameKey, PyVal.list [.str "a", .str "b", .str "c"]),
     (seatTypeKey, PyVal.list [.str "t1", .str "t2", .str "t3"]),
     (seatBuyKey, PyVal.list [.int 1, .int 2]),
     (seatSellKey, PyVal.list [.int 3, .int 4, .int 5])]
  exact ⟨h.1.trans rfl, h.2 0 (by decide)⟩

/-- C10.  _to_float is total by construction in this embedding and maps
None, empty-after-cleaning strings, and unparseable-after-cleaning
strings all to 0.0, converts numbers (including bools) numerically, and
maps every other object to 0.0 as well, so an unparseable seat amount is
recorded as 0.0 rather than as a null or an error. -/
theorem to_float_total_defaults (pyF : String → Option ℚ) :
    to_float pyF PyVal.none = 0 ∧
    (∀ s : String, pyStrip (removeCommas s) = "" → to_float pyF (.str s) = 0) ∧
    (∀ s : String, pyF (pyStrip (removeCommas s)) = Option.none →
        to_float pyF (.str s) = 0) ∧
    (∀ n : Int, to_float pyF (.int n) = (n : ℚ)) ∧
    (∀ q : ℚ, to_float pyF (.float q) = q) ∧
    (∀ b : Bool, to_float pyF (.bool b) = if b then 1 else 0) ∧
    (∀ xs : List PyVal, to_float pyF (.list xs) = 0) ∧
    (∀ kvs : List (String × PyVal), to_float pyF (.dict kvs) = 0) ∧
    to_float pyF .obj = 0 := by
  refine ⟨rfl, ?_, ?_, fun _ => rfl, fun _ => rfl, fun _ => rfl,
    fun _ => rfl, fun _ => rfl, rfl⟩
  · intro s h
    simp [to_float, h]
  · intro s h
    by_cases ht : pyStrip (removeCommas s) = "" <;> simp [to_float, ht, h]

/-- Witness for to_float_total_defaults: a comma-and-space string cleans
to empty and maps to 0, and a string the float parser rejects also maps
to 0. -/
theorem to_float_total_defaults_witness :
    to_float (fun _ => Option.none) (.str " , ") = 0 ∧
    to_float (fun _ => Option.none) (.str "12x") = 0 :=
  ⟨(to_float_total_defaults (fun _ => Option.none)).2.1 " , " (by decide),
   (to_float_total_defaults (fun _ => Option.none)).2.2.1 "12x" rfl⟩
